import Mathlib

/-!
Shallow embedding of the dvc repository sources:
  * `src/dvc/cli.py` — the argparse command-line surface (`parse_args`),
    embedded as the static parser configuration it builds;
  * `src/dvc/commands/data.py` — the `data status` command
    (`CmdDataStatus._process_status`, `_show_status`, `run`, `add_parser`);
together with spec-modelled definitions of the core components that the
spec describes but whose code is not under `src/` (ContentHasher,
DependencyGraph, ReproductionEngine, GarbageCollector,
RemoteTransferManager).
-/

/-- The default value recorded for an argparse argument
(`default=` keyword of `add_argument`); `noneV` is Python `None`. -/
inductive ArgDefault where
  | noneV : ArgDefault
  | boolV (b : Bool) : ArgDefault
  | strV (s : String) : ArgDefault
  | strListV (l : List String) : ArgDefault
  | intV (n : Int) : ArgDefault
deriving DecidableEq, Repr

/-- One `add_argument` call of `src/dvc/cli.py`: option strings (or a single
positional name), the argparse action, the declared default, `nargs`, and
`choices`. -/
structure ArgSpec where
  flags : List String
  action : String := "store"
  default : ArgDefault := .noneV
  nargs : String := ""
  choices : List String := []
deriving DecidableEq, Repr

/-- The command classes imported and bound via `set_defaults(func=...)`
in `src/dvc/cli.py`. -/
inductive Handler where
  | CmdInit | CmdRun | CmdDataPull | CmdDataPush | CmdDataStatus
  | CmdRepro | CmdRemove | CmdAdd | CmdLock | CmdGC
  | CmdInstanceCreate | CmdConfig | CmdShowPipeline | CmdShowWorkflow
  | CmdCheckout | CmdFind | CmdFsck
deriving DecidableEq, Repr

/-- One subparser registered by `parse_args`: its path of subcommand names
(nested subparsers give paths of length > 1, e.g. `["ex", "cloud",
"create"]`), its argument specs (parents included, in source order), and
the handler class bound by `set_defaults(func=...)`, if any. -/
structure SubSpec where
  path : List String
  args : List ArgSpec
  func : Option Handler
deriving DecidableEq, Repr

namespace Stage

/-- Modelled from the spec: `dvc/stage.py` is not under `src/`; the spec
says `repro` and `lock` default their targets to the single default stage
file `Stage.STAGE_FILE`.  The concrete string is immaterial to the claims,
which reference the constant symbolically. -/
def STAGE_FILE : String := "Dvcfile"

end Stage

/-- The `-q`, `-v`, `-b`, `-n` arguments of `parent_parser`, inherited by every
subparser built with `parents=[parent_parser]`. -/
def parentArgs : List ArgSpec :=
  [ { flags := ["-q", "--quiet"], action := "store_true", default := .boolV false },
    { flags := ["-v", "--verbose"], action := "store_true", default := .boolV false },
    { flags := ["-b", "--branch"] },
    { flags := ["-n", "--new-branch"] } ]

/-- `parent_sync_parser`: the parent args plus the `-j` (`--jobs`) option with
`type=int, default=cpu_count()`; used by `pull`, `push` and `status`. -/
def parentSyncArgs (cpuCount : Int) : List ArgSpec :=
  parentArgs ++
  [ { flags := ["-j", "--jobs"], default := .intV cpuCount } ]

/-- The full subparser configuration built by `parse_args` in
`src/dvc/cli.py`, in registration order.  `cpuCount` is the value of
`multiprocessing.cpu_count()` on the host. -/
def dvcCommands (cpuCount : Int) : List SubSpec :=
  [ { path := ["init"], args := parentArgs, func := some .CmdInit },
    { path := ["run"],
      args := parentArgs ++
        [ { flags := ["-d", "--deps"], action := "append", default := .strListV [] },
          { flags := ["-o", "--outs"], action := "append", default := .strListV [] },
          { flags := ["-O", "--outs-no-cache"], action := "append", default := .strListV [] },
          { flags := ["-l", "--lock"], action := "store_true", default := .boolV false },
          { flags := ["-f", "--file"] },
          { flags := ["-c", "--cwd"], default := .strV "." },
          { flags := ["--no-exec"], action := "store_true", default := .boolV false },
          { flags := ["command"], nargs := "REMAINDER" } ],
      func := some .CmdRun },
    { path := ["pull"], args := parentSyncArgs cpuCount, func := some .CmdDataPull },
    { path := ["push"], args := parentSyncArgs cpuCount, func := some .CmdDataPush },
    { path := ["status"], args := parentSyncArgs cpuCount, func := some .CmdDataStatus },
    { path := ["repro"],
      args := parentArgs ++
        [ { flags := ["targets"], nargs := "*", default := .strListV [Stage.STAGE_FILE] },
          { flags := ["-f", "--force"], action := "store_true", default := .boolV false },
          { flags := ["-s", "--single-item"], action := "store_true", default := .boolV false } ],
      func := some .CmdRepro },
    { path := ["remove"],
      args := parentArgs ++ [ { flags := ["targets"], nargs := "+" } ],
      func := some .CmdRemove },
    { path := ["add"],
      args := parentArgs ++ [ { flags := ["targets"], nargs := "+" } ],
      func := some .CmdAdd },
    { path := ["lock"],
      args := parentArgs ++
        [ { flags := ["-u", "--unlock"], action := "store_true", default := .boolV false },
          { flags := ["files"], nargs := "*", default := .strListV [Stage.STAGE_FILE] } ],
      func := some .CmdLock },
    { path := ["gc"], args := parentArgs, func := some .CmdGC },
    { path := ["ex"], args := parentArgs, func := none },
    { path := ["ex", "cloud"], args := parentArgs, func := none },
    { path := ["ex", "cloud", "create"],
      args :=
        [ { flags := ["name"], nargs := "?" },
          { flags := ["-c", "--cloud"] },
          { flags := ["-t", "--type"] },
          { flags := ["-i", "--image"] },
          { flags := ["--spot-price"] },
          { flags := ["--spot-timeout"] },
          { flags := ["--keypair-name"] },
          { flags := ["--keypair-dir"] },
          { flags := ["--security-group"] },
          { flags := ["--region"] },
          { flags := ["--zone"] },
          { flags := ["--subnet-id"] },
          { flags := ["--storage"] },
          { flags := ["--monitoring"], action := "store_true", default := .boolV false },
          { flags := ["--ebs-optimized"], action := "store_true", default := .boolV false },
          { flags := ["--disks-to-ride0"], action := "store_true", default := .boolV false } ],
      func := some .CmdInstanceCreate },
    { path := ["config"],
      args := parentArgs ++
        [ { flags := ["-u", "--unset"], action := "store_true", default := .boolV false },
          { flags := ["name"] },
          { flags := ["value"], nargs := "?" } ],
      func := some .CmdConfig },
    { path := ["show"], args := parentArgs, func := none },
    { path := ["show", "pipeline"],
      args := parentArgs ++ [ { flags := ["target"], nargs := "*" } ],
      func := some .CmdShowPipeline },
    { path := ["show", "workflow"],
      args := parentArgs ++
        [ { flags := ["target"], nargs := "?" },
          { flags := ["-d", "--dvc-commits"], action := "store_true", default := .boolV false },
          { flags := ["-a", "--all-commits"], action := "store_true", default := .boolV false },
          { flags := ["-m", "--max-commits"], default := .intV 4 } ],
      func := some .CmdShowWorkflow },
    { path := ["checkout"], args := parentArgs, func := some .CmdCheckout },
    { path := ["find"],
      args := parentArgs ++
        [ { flags := ["branch_name"], nargs := "?" },
          { flags := ["target"], nargs := "?" },
          { flags := ["-c", "--criteria"], default := .strV "max",
            choices := ["max", "min", "all"] },
          { flags := ["-s", "--show-value"], action := "store_true", default := .boolV false } ],
      func := some .CmdFind },
    { path := ["fsck"],
      args := parentArgs ++
        [ { flags := ["targets"], nargs := "*" },
          { flags := ["-p", "--physical"], action := "store_true", default := .boolV false },
          { flags := ["-a", "--all"], action := "store_true", default := .boolV false } ],
      func := some .CmdFsck } ]

/-- A top-level subcommand name is accepted iff it is registered as a
length-one path; the bound handler is its `func`. -/
def acceptsTop (cpuCount : Int) (name : String) : Option Handler :=
  ((dvcCommands cpuCount).find? (fun sc => sc.path = [name])).bind (·.func)

/-- Number of registrations of a top-level subcommand name. -/
def topRegistrations (cpuCount : Int) (name : String) : Nat :=
  ((dvcCommands cpuCount).filter (fun sc => sc.path = [name])).length

/-!
Embedding of `src/dvc/commands/data.py` (`CmdDataStatus`).  The Python
`status` value is the `Status` TypedDict produced by `repo.data_status`:
string-keyed sections whose values are either a list of files or a dict
from state to files, plus a `git` entry holding a dict of booleans.  We
model the `git` entry as its own typed field (as the TypedDict guarantees
its presence and shape) and the remaining sections as an association list
in insertion order; `dict.pop(key)` on a section is partial (Python raises
`KeyError` when the key is absent), hence `Option`.
-/

/-- Value of one section of the data-status mapping: either a plain list
of files, or a dict from state to the files in that state. -/
inductive StageStatusVal where
  | files (fs : List String)
  | grouped (m : List (String × List String))
deriving DecidableEq, Repr

/-- The `items` value yielded by `_process_status`: the section value
as-is for a list, or the flattened file-to-state dict. -/
inductive Items where
  | files (fs : List String)
  | mapping (m : List (String × String))
deriving DecidableEq, Repr

/-- The `git` entry of the status mapping. -/
structure GitInfo where
  is_empty : Bool
  is_dirty : Bool
deriving DecidableEq, Repr

/-- The full result of `repo.data_status` as consumed by `CmdDataStatus`. -/
structure DataStatus where
  sections : List (String × StageStatusVal)
  git : GitInfo
deriving DecidableEq, Repr

/-- The parsed arguments of `dvc data status` that `run` reads, with the
defaults declared in `add_parser`. -/
structure DataArgs where
  json : Bool := false
  granular : Bool := false
  unchanged : Bool := false
  untracked_files : String := "no"
  with_dirs : Bool := false
deriving DecidableEq, Repr

/-- What the command emits: the JSON document of the json path, or the
styled human-readable lines written through `ui.write`. -/
inductive Rendered where
  | jsonDoc (sections : List (String × StageStatusVal))
  | textLines (lines : List String)
deriving DecidableEq, Repr

/-- Association-list lookup (Python `dict.get`). -/
def alookup {β : Type} : List (String × β) → String → Option β
  | [], _ => none
  | (k', v) :: rest, k => if k' = k then some v else alookup rest k

/-- Python dict insertion: overwriting an existing key keeps its original
position (keys of a Python dict are unique, so replacing the first
occurrence is replacing the only one); a fresh key is appended. -/
def dictInsert {β : Type} : List (String × β) → String → β → List (String × β)
  | [], k, v => [(k, v)]
  | (k', v') :: m, k, v =>
    if k' = k then (k, v) :: m else (k', v') :: dictInsert m k v

/-- Python `dict(pairs)`: fold the pairs into a dict, later pairs winning. -/
def dictOfPairs {β : Type} (ps : List (String × β)) : List (String × β) :=
  ps.foldl (fun m kv => dictInsert m kv.1 kv.2) []

/-- `dict.pop(key)` returning the remaining dict, `none` when the key is
absent (Python raises `KeyError`). -/
def popKey : List (String × StageStatusVal) → String →
    Option (List (String × StageStatusVal))
  | [], _ => none
  | (k', v) :: rest, k =>
    if k' = k then some rest else (popKey rest k).map ((k', v) :: ·)

/-- Python truthiness of a section value: empty list and empty dict are
falsy (`funcy.compact` drops them; `if not items` skips them). -/
def isEmptyVal : StageStatusVal → Bool
  | .files fs => fs.isEmpty
  | .grouped g => g.isEmpty

/-- Truthiness of a flattened `items` value. -/
def isEmptyItems : Items → Bool
  | .files fs => fs.isEmpty
  | .mapping m => m.isEmpty

/-- `funcy.compact` over the status dict: drop falsy (empty) values. -/
def compactSections (l : List (String × StageStatusVal)) :
    List (String × StageStatusVal) :=
  l.filter (fun kv => !isEmptyVal kv.2)

/-- Python `str.capitalize`: first character uppercased, rest lowercased. -/
def pyCapitalize (s : String) : String :=
  match s.data with
  | [] => ""
  | c :: cs => String.mk (c.toUpper :: cs.map Char.toLower)

namespace CmdDataStatus

/-- `CmdDataStatus.COLORS`. -/
def COLORS : List (String × String) :=
  [ ("not_in_cache", "red"),
    ("committed", "green"),
    ("uncommitted", "yellow"),
    ("untracked", "cyan") ]

/-- `CmdDataStatus.LABELS`. -/
def LABELS : List (String × String) :=
  [ ("not_in_cache", "Not in cache"),
    ("committed", "DVC committed changes"),
    ("uncommitted", "DVC uncommitted changes"),
    ("untracked", "Untracked files"),
    ("unchanged", "DVC unchanged files") ]

/-- `CmdDataStatus.HINTS` for the four per-section hints; the `git_dirty`
hint is a format string rendered by `gitDirtyMessage` below. -/
def HINTS : List (String × String) :=
  [ ("not_in_cache", "use \"dvc pull <file>...\" to update your local storage"),
    ("committed", "git commit the corresponding dvc files to update the repo"),
    ("uncommitted", "use \"dvc commit <file>...\" to track changes"),
    ("untracked", "use \"git add <file> ...\" or dvc add <file>...\" to commit to git or to dvc") ]

/-- `HINTS["git_dirty"].format(fill)`. -/
def gitDirtyMessage (fill : String) : String :=
  "there are " ++ fill ++ "changes not tracked by dvc, use \"git status\" to see"

/-- The dict-comprehension of `_process_status`: flatten a state-to-files
dict into a file-to-state dict, in iteration order. -/
def flattenGrouped (g : List (String × List String)) :
    List (String × String) :=
  g.foldl (fun m sf => sf.2.foldl (fun m file => dictInsert m file sf.1) m) []

/-- The `items` computed for one section value inside `_process_status`. -/
def itemsOf : StageStatusVal → Items
  | .files fs => .files fs
  | .grouped g => .mapping (flattenGrouped g)

/-- `CmdDataStatus._process_status`: flatten each dict-valued stage status
and drop stages whose items are empty, yielding `(stage, items)` pairs in
order. -/
def processStatus : List (String × StageStatusVal) → List (String × Items)
  | [] => []
  | (stage, v) :: rest =>
    let items := itemsOf v
    if isEmptyItems items then processStatus rest
    else (stage, items) :: processStatus rest

/-- The label chosen for a section (`LABELS.get(stage, stage.capitalize()
+ " files")`). -/
def labelOf (stage : String) : String :=
  (alookup LABELS stage).getD (pyCapitalize stage ++ " files")

/-- The color chosen for a section (`COLORS.get(stage, "normal")`). -/
def colorOf (stage : String) : String :=
  (alookup COLORS stage).getD "normal"

/-- The per-item lines of one section, as written by `ui.write` with the
leading tab expanded to 8 spaces. -/
def itemLines (color : String) (items : Items) : List String :=
  let strs := match items with
    | .mapping m => m.map (fun (fs : String × String) => fs.2 ++ ": " ++ fs.1)
    | .files fs => fs
  strs.map (fun item => "        [" ++ color ++ "]" ++ item ++ "[/]")

/-- The block of lines written for the section at position `idx`. -/
def sectionBlock (idx : Nat) (stage : String) (items : Items) :
    List String :=
  (if idx ≠ 0 then [""] else []) ++
  [labelOf stage ++ ":"] ++
  (match alookup HINTS stage with
   | some h => ["  (" ++ h ++ ")"]
   | none => []) ++
  itemLines (colorOf stage) items

/-- `CmdDataStatus._show_status`: pops the `git` entry (here: reads the
typed field), builds `dict(_process_status(status))`, writes the
no-changes line or the per-section blocks plus the git-dirty hint, and
returns 0. -/
def showStatus (st : DataStatus) : Rendered × Int :=
  let git_info := st.git
  let result := dictOfPairs (processStatus st.sections)
  let noChangeLines :=
    if result.isEmpty then
      [if git_info.is_empty then "No changes in an empty git repo."
       else "No changes."]
    else []
  let body :=
    (result.enum.map (fun p => sectionBlock p.1 p.2.1 p.2.2)).flatten
  let dirty :=
    if git_info.is_dirty then
      ["[blue](" ++
         gitDirtyMessage (if result.isEmpty then "" else "other ") ++ ")[/]"]
    else []
  (.textLines (noChangeLines ++ body ++ dirty), 0)

/-- `CmdDataStatus.run`: pop `unchanged` unless `--unchanged`, pop
`untracked` when `--untracked-files` is `"no"`; on `--json` drop the git
entry and emit the compacted sections as JSON with exit code 0, otherwise
delegate to `_show_status`.  `none` models a Python `KeyError` from a
failing `pop`. -/
def run (args : DataArgs) (st : DataStatus) : Option (Rendered × Int) :=
  match (if args.unchanged then some st.sections
         else popKey st.sections "unchanged") with
  | none => none
  | some s1 =>
    match (if args.untracked_files = "no" then popKey s1 "untracked"
           else some s1) with
    | none => none
    | some s2 =>
      if args.json then some (.jsonDoc (compactSections s2), 0)
      else some (showStatus { st with sections := s2 })

end CmdDataStatus

/-- The `add_argument` calls of `add_parser` for `dvc data status` in
`src/dvc/commands/data.py` (the `--untracked-files` option also carries
`const="all"`). -/
def dataStatusParserArgs : List ArgSpec :=
  [ { flags := ["--json"], action := "store_true", default := .boolV false },
    { flags := ["--show-json"], action := "store_true", default := .boolV false },
    { flags := ["--granular"], action := "store_true", default := .boolV false },
    { flags := ["--unchanged"], action := "store_true", default := .boolV false },
    { flags := ["--untracked-files"], default := .strV "no", nargs := "?",
      choices := ["no", "all"] },
    { flags := ["--with-dirs"], action := "store_true", default := .boolV false } ]

/-!
Spec-modelled core components.  The repository under `src/` contains only
the CLI surface; the core the spec describes (ContentHasher,
DependencyGraph, ReproductionEngine, GarbageCollector,
RemoteTransferManager) is not under `src/`, so the definitions below are
modelled from the spec, faithful to its words, and each doc comment says
so.
-/

/-- Modelled from the spec: a file as seen by ContentHasher — its content
bytes plus the metadata (mtime, permissions) that §4.1 says the
fingerprint must be independent of.  `dvc`'s hashing code is not under
`src/`. -/
structure FileMeta where
  content : List Nat
  mtime : Nat
  perms : Nat
deriving DecidableEq, Repr

/-- Modelled from the spec: the content-hash function.  §8 assumes
collision-freedom at the hash-function level, so the hash is modelled as
an injective function of the content bytes (the identity embedding). -/
def hashContent (c : List Nat) : List Nat := c

/-- Modelled from the spec: `ContentHasher.fingerprint(path)` —
deterministic and content-only (§4.1): a pure function of the file's
content, reading none of its metadata. -/
def fingerprint (f : FileMeta) : List Nat := hashContent f.content

/-- Modelled from the spec: a StageDescriptor as DependencyGraph sees it —
identity (persisted file path), command, dependency paths and output
paths (§3). -/
structure StageD where
  path : String
  cmd : String
  deps : List String
  outs : List String
deriving DecidableEq, Repr

/-- Modelled from the spec: the graph edge relation — `S1 → S2` iff an
output of `S1` matches a dependency path of `S2` (§3). -/
def depEdgeD (t s : StageD) : Bool :=
  t.outs.any (fun o => s.deps.contains o)

/-- A stage with no incoming edge from the remaining stages (a Kahn
source). -/
def noIncoming (remaining : List StageD) (s : StageD) : Bool :=
  !(remaining.any (fun t => depEdgeD t s))

/-- Modelled from the spec: the cycle-detection pass of
`DependencyGraph.build` (§4.4), as source-elimination: repeatedly remove
the stages with no incoming edge; if at some step none exists while
stages remain, the remaining stages contain a cycle.  Returns the
topological order on success.  `fuel` bounds the recursion; `build`
passes the stage count, which suffices since every successful step
removes at least one stage. -/
def kahn : Nat → List StageD → Option (List StageD)
  | _, [] => some []
  | 0, _ :: _ => none
  | fuel + 1, remaining =>
    let sources := remaining.filter (fun s => noIncoming remaining s)
    if sources.isEmpty then none
    else
      (kahn fuel (remaining.filter (fun s => !noIncoming remaining s))).map
        (fun rest => sources ++ rest)

/-- No two distinct stages declare the same output path (§3: ambiguous
producer detection). -/
def pairwiseDisjointOuts : List StageD → Bool
  | [] => true
  | s :: rest =>
    (!rest.any (fun t => t.outs.any (fun o => s.outs.contains o))) &&
      pairwiseDisjointOuts rest

/-- Modelled from the spec: the error taxonomy entry `StructuralError`
(cycle or ambiguous producer in the graph, §7). -/
inductive StructuralError where
  | cycle
  | ambiguousProducer
deriving DecidableEq, Repr

/-- Modelled from the spec: the graph returned by a successful build —
the stages plus a topological order over them. -/
structure Graph where
  stages : List StageD
  order : List StageD
deriving DecidableEq, Repr

/-- Modelled from the spec: `DependencyGraph.build(stages)` (§4.4): index
outputs, detect ambiguous producers, run cycle detection; fail with
`StructuralError` on a cycle or an ambiguous producer. -/
def build (stages : List StageD) : Except StructuralError Graph :=
  if !pairwiseDisjointOuts stages then .error .ambiguousProducer
  else
    match kahn stages.length stages with
    | none => .error .cycle
    | some order => .ok { stages := stages, order := order }

/-- Modelled from the spec: the repository state `build` runs against —
its stage descriptors and the workspace file contents (path to content,
with the injective content hash of `hashContent` a file's fingerprint is
its content value). -/
structure Repo where
  stages : List StageD
  workspace : List (String × Nat)
deriving DecidableEq, Repr

/-- `build` as an operation on a repository: it reads the stage set and
returns the repository unchanged — graph building performs no mutation
(§7: structural errors abort before any mutation occurs). -/
def buildInRepo (r : Repo) : Except StructuralError Graph × Repo :=
  (build r.stages, r)

/-- The stage list `c` witnesses a dependency cycle inside `stages`:
it is nonempty, lies inside `stages`, and each of its members has an
incoming `depEdgeD` edge from some member — exactly the sets of stages a
directed cycle passes through. -/
def IsCycleIn (stages c : List StageD) : Prop :=
  c ≠ [] ∧ (∀ s ∈ c, s ∈ stages) ∧ ∀ s ∈ c, ∃ t ∈ c, depEdgeD t s = true

instance (stages c : List StageD) : Decidable (IsCycleIn stages c) := by
  unfold IsCycleIn; infer_instance

/-!
Spec-modelled ReproductionEngine (§4.5).  A stage descriptor carries the
command, the recorded command fingerprint, and the recorded dependency
and output fingerprints; the workspace maps paths to content values.
With the collision-free hash modelled as injective, a file's fingerprint
is identified with its content value.  Stage commands are external,
deterministic programs (§5: a synchronous call, blocking until exit):
they are modelled by a function `exec` giving, per command and
dependency contents, the content of each output index.
-/

/-- Modelled from the spec: a StageDescriptor as the ReproductionEngine
sees it — command, recorded command fingerprint (`none` if never run),
dependency and output paths with their last-known fingerprints, and the
`locked` flag (§3, §6). -/
structure RStage where
  path : String
  cmd : Nat
  cmdFp : Option Nat
  deps : List (String × Option Nat)
  outs : List (String × Option Nat)
  locked : Bool
deriving DecidableEq, Repr

/-- The current contents of a stage's dependencies in the workspace
(missing files read as content 0; staleness is decided separately by
fingerprint comparison). -/
def depContents (env : List (String × Nat)) (s : RStage) : List Nat :=
  s.deps.map (fun d => (alookup env d.1).getD 0)

/-- Write the stage's outputs into the workspace: output index `i`
receives content `vals i`. -/
def writeOuts (vals : Nat → Nat) :
    List (String × Option Nat) → Nat → List (String × Nat) →
    List (String × Nat)
  | [], _, env => env
  | o :: rest, i, env => writeOuts vals rest (i + 1) (dictInsert env o.1 (vals i))

/-- Modelled from the spec: after a successful execution the engine
recomputes fingerprints and updates the descriptor via StageStore
(§4.5): dependency fingerprints from the pre-execution workspace, output
fingerprints from the post-execution workspace, and the command
fingerprint from the command itself. -/
def updateStage (envPre envPost : List (String × Nat)) (s : RStage) : RStage :=
  { s with
    cmdFp := some s.cmd,
    deps := s.deps.map (fun d => (d.1, alookup envPre d.1)),
    outs := s.outs.map (fun o => (o.1, alookup envPost o.1)) }

/-- Some dependency's current on-disk fingerprint differs from the
recorded one (§4.5, first staleness clause). -/
def depsChanged (env : List (String × Nat)) (s : RStage) : Bool :=
  s.deps.any (fun d => d.2 != alookup env d.1)

/-- Some output is missing from the workspace (§4.5, second staleness
clause). -/
def outsMissing (env : List (String × Nat)) (s : RStage) : Bool :=
  s.outs.any (fun o => (alookup env o.1).isNone)

/-- The command text changed since the last recorded run (§4.5, third
staleness clause). -/
def cmdChanged (s : RStage) : Bool :=
  s.cmdFp != some s.cmd

/-- Edge relation between engine-level stages: an output path of `t` is a
dependency path of `s`. -/
def rDepEdge (t s : RStage) : Bool :=
  t.outs.any (fun o => s.deps.any (fun d => d.1 = o.1))

/-- An ancestor stage was itself re-executed during this run (§4.5, the
staleness-propagation clause): some already-executed stage feeds `s`. -/
def ancestorReexecuted (executed : List RStage) (s : RStage) : Bool :=
  executed.any (fun t => rDepEdge t s)

/-- Modelled from the spec: the Stale decision of §4.5 — dependency
fingerprint mismatch, missing output, changed command, `force`, or a
re-executed ancestor. -/
def isStale (force : Bool) (env : List (String × Nat))
    (executed : List RStage) (s : RStage) : Bool :=
  force || depsChanged env s || outsMissing env s || cmdChanged s ||
    ancestorReexecuted executed s

/-- Modelled from the spec: the terminal per-stage states of a run whose
commands all exit successfully — `skipped` (§4.5: nothing stale, or the
stage is locked) or `succeeded`. -/
inductive StageResult where
  | skipped
  | succeeded
deriving DecidableEq, Repr

/-- Modelled from the spec: the ReproductionEngine walk (§4.5), over
stages already in topological order (§4.5: execution order follows
`DependencyGraph.topologicalOrder`).  A locked stage is skipped; a stale
stage is executed (outputs written, descriptor updated, appended to the
executed set); anything else is skipped.  Returns the final workspace
and, per stage in order, the final descriptor and its terminal state. -/
def repro (exec : Nat → List Nat → Nat → Nat) (force : Bool) :
    List (String × Nat) → List RStage → List RStage →
    List (String × Nat) × List (RStage × StageResult)
  | env, _, [] => (env, [])
  | env, executed, s :: rest =>
    if s.locked then
      let r := repro exec force env executed rest
      (r.1, (s, .skipped) :: r.2)
    else if isStale force env executed s then
      let env' := writeOuts (exec s.cmd (depContents env s)) s.outs 0 env
      let s' := updateStage env env' s
      let r := repro exec force env' (executed ++ [s']) rest
      (r.1, (s', .succeeded) :: r.2)
    else
      let r := repro exec force env executed rest
      (r.1, (s, .skipped) :: r.2)

/-- A full `repro` invocation: no stage executed yet. -/
def reproRun (exec : Nat → List Nat → Nat → Nat) (force : Bool)
    (env : List (String × Nat)) (stages : List RStage) :
    List (String × Nat) × List (RStage × StageResult) :=
  repro exec force env [] stages

/-- The stage list is topologically ordered: no stage receives an edge
from itself or from any stage at or after it (§4.4). -/
def topoOrdered : List RStage → Bool
  | [] => true
  | s :: rest => (s :: rest).all (fun t => !rDepEdge t s) && topoOrdered rest

/-- No output path of `s` is an output path of `t`. -/
def outsDisjoint (s t : RStage) : Bool :=
  !(s.outs.any (fun o => t.outs.any (fun o' => o'.1 = o.1)))

/-- No two stages in the list declare the same output path (§3). -/
def uniqueOuts : List RStage → Bool
  | [] => true
  | s :: rest => rest.all (fun t => outsDisjoint s t) && uniqueOuts rest

/-- The descriptor agrees with the workspace: recorded dependency
fingerprints current, all outputs present, command unchanged. -/
def upToDate (env : List (String × Nat)) (s : RStage) : Bool :=
  !depsChanged env s && !outsMissing env s && !cmdChanged s

/-!
Spec-modelled GarbageCollector (§4.8) and RemoteTransferManager (§4.6).
-/

/-- Modelled from the spec: the set of fingerprints reachable from any
StageDescriptor's current outputs (§4.8). -/
def reachableFps (stages : List RStage) : List Nat :=
  (stages.map (fun s => s.outs.filterMap Prod.snd)).flatten

/-- Modelled from the spec: `GarbageCollector.collect(graph, cache)`
(§4.8) — remove every cache entry not in the reachable set, keeping
exactly the reachable ones. -/
def collect (stages : List RStage) (cache : List Nat) : List Nat :=
  cache.filter (fun fp => (reachableFps stages).contains fp)

/-- Modelled from the spec: the RemoteTransferManager's bounded worker
pool (§4.6, §5) — the queue of fingerprints is served in waves of at
most `jobs` concurrent transfers; each inner list is one wave of
transfers in flight together.  `fuel` bounds the recursion; the entry
point passes the queue length, which suffices since every wave consumes
at least one fingerprint. -/
def scheduleTransfersAux (jobs : Nat) : Nat → List Nat → List (List Nat)
  | _, [] => []
  | 0, _ :: _ => []
  | fuel + 1, fp :: rest =>
    (fp :: rest.take (jobs - 1)) ::
      scheduleTransfersAux jobs fuel (rest.drop (jobs - 1))

/-- The waves of concurrent transfers for a queue of fingerprints. -/
def scheduleTransfers (jobs : Nat) (fps : List Nat) : List (List Nat) :=
  scheduleTransfersAux jobs fps.length fps

/-- The argument specs of a top-level subcommand (empty when the name is
not registered). -/
def argsOfTop (cpuCount : Int) (name : String) : List ArgSpec :=
  ((dvcCommands cpuCount).find? (fun sc => sc.path = [name])).elim [] (·.args)

/-- Every wave of the transfer schedule holds at most `jobs` transfers. -/
lemma scheduleTransfersAux_wave_le (jobs : Nat) (h : 1 ≤ jobs) :
    ∀ (fuel : Nat) (fps : List Nat),
      ∀ wave ∈ scheduleTransfersAux jobs fuel fps, wave.length ≤ jobs := by
  intro fuel
  induction fuel with
  | zero =>
    intro fps wave hw
    cases fps <;> simp [scheduleTransfersAux] at hw
  | succ fuel ih =>
    intro fps wave hw
    cases fps with
    | nil => simp [scheduleTransfersAux] at hw
    | cons fp rest =>
      simp only [scheduleTransfersAux, List.mem_cons] at hw
      rcases hw with rfl | hw
      · simp only [List.length_cons, List.length_take]
        omega
      · exact ih _ wave hw

/-- C1 (corrected): `unlock` is not an accepted subcommand of
`parse_args`: looking it up among the registered subcommands yields no
handler.  (The stated claim lists `unlock` among the accepted
subcommands.) -/
theorem C1_counterexample : acceptsTop 4 "unlock" = none := by decide

/-- C1 (amended): each of `init`, `add`, `run`, `repro`, `push`, `pull`,
`status`, `gc`, `lock`, `checkout`, `remove` is registered exactly once
as a top-level subcommand and bound to exactly one handler class via
`set_defaults(func=...)`; `unlock` is not itself a subcommand — instead
the `lock` subcommand carries a `-u`, `--unlock` store-true flag
(default false) that unlocks stages. -/
theorem C1_subcommand_handlers (cpuCount : Int) :
    (acceptsTop cpuCount "init" = some Handler.CmdInit ∧
      topRegistrations cpuCount "init" = 1) ∧
    (acceptsTop cpuCount "add" = some Handler.CmdAdd ∧
      topRegistrations cpuCount "add" = 1) ∧
    (acceptsTop cpuCount "run" = some Handler.CmdRun ∧
      topRegistrations cpuCount "run" = 1) ∧
    (acceptsTop cpuCount "repro" = some Handler.CmdRepro ∧
      topRegistrations cpuCount "repro" = 1) ∧
    (acceptsTop cpuCount "push" = some Handler.CmdDataPush ∧
      topRegistrations cpuCount "push" = 1) ∧
    (acceptsTop cpuCount "pull" = some Handler.CmdDataPull ∧
      topRegistrations cpuCount "pull" = 1) ∧
    (acceptsTop cpuCount "status" = some Handler.CmdDataStatus ∧
      topRegistrations cpuCount "status" = 1) ∧
    (acceptsTop cpuCount "gc" = some Handler.CmdGC ∧
      topRegistrations cpuCount "gc" = 1) ∧
    (acceptsTop cpuCount "lock" = some Handler.CmdLock ∧
      topRegistrations cpuCount "lock" = 1) ∧
    (acceptsTop cpuCount "checkout" = some Handler.CmdCheckout ∧
      topRegistrations cpuCount "checkout" = 1) ∧
    (acceptsTop cpuCount "remove" = some Handler.CmdRemove ∧
      topRegistrations cpuCount "remove" = 1) ∧
    acceptsTop cpuCount "unlock" = none ∧
    topRegistrations cpuCount "unlock" = 0 ∧
    ({ flags := ["-u", "--unlock"], action := "store_true",
       default := .boolV false : ArgSpec } ∈ argsOfTop cpuCount "lock") := by
  refine ⟨⟨rfl, rfl⟩, ⟨rfl, rfl⟩, ⟨rfl, rfl⟩, ⟨rfl, rfl⟩, ⟨rfl, rfl⟩,
    ⟨rfl, rfl⟩, ⟨rfl, rfl⟩, ⟨rfl, rfl⟩, ⟨rfl, rfl⟩, ⟨rfl, rfl⟩, ⟨rfl, rfl⟩,
    rfl, rfl, List.mem_append_right _ (by decide)⟩

/-- C2: each of `push`, `pull`, `status` accepts a `-j`, `--jobs` integer
option whose default is the host CPU count, and the transfer scheduler
never puts more than `jobs` transfers in one concurrent wave. -/
theorem C2_jobs_bounds_transfers (cpuCount : Int) :
    ({ flags := ["-j", "--jobs"], default := ArgDefault.intV cpuCount :
        ArgSpec } ∈ argsOfTop cpuCount "push") ∧
    ({ flags := ["-j", "--jobs"], default := ArgDefault.intV cpuCount :
        ArgSpec } ∈ argsOfTop cpuCount "pull") ∧
    ({ flags := ["-j", "--jobs"], default := ArgDefault.intV cpuCount :
        ArgSpec } ∈ argsOfTop cpuCount "status") ∧
    ∀ (jobs : Nat) (fps : List Nat), 1 ≤ jobs →
      ∀ wave ∈ scheduleTransfers jobs fps, wave.length ≤ jobs := by
  refine ⟨List.mem_append_right _ (List.mem_singleton_self _),
    List.mem_append_right _ (List.mem_singleton_self _),
    List.mem_append_right _ (List.mem_singleton_self _), ?_⟩
  intro jobs fps h wave hw
  exact scheduleTransfersAux_wave_le jobs h fps.length fps wave hw

/-- Witness for C2 at `cpuCount = 8`, `jobs = 2`, queue `[5, 6, 7]`,
first wave `[5, 6]`. -/
theorem C2_witness :
    ({ flags := ["-j", "--jobs"], default := ArgDefault.intV 8 :
        ArgSpec } ∈ argsOfTop 8 "push") ∧
    1 ≤ 2 ∧ [5, 6] ∈ scheduleTransfers 2 [5, 6, 7] ∧
    ([5, 6] : List Nat).length ≤ 2 :=
  ⟨(C2_jobs_bounds_transfers 8).1, by decide, by decide,
    (C2_jobs_bounds_transfers 8).2.2.2 2 [5, 6, 7] (by decide) [5, 6]
      (by decide)⟩

/-- C3: the `repro` subcommand accepts `-f`, `--force` and `-s`,
`--single-item`, both store-true with default false, and a positional
`targets` list with `nargs="*"` defaulting to the single default stage
file `Stage.STAGE_FILE`. -/
theorem C3_repro_options (cpuCount : Int) :
    acceptsTop cpuCount "repro" = some Handler.CmdRepro ∧
    ({ flags := ["-f", "--force"], action := "store_true",
       default := .boolV false : ArgSpec } ∈ argsOfTop cpuCount "repro") ∧
    ({ flags := ["-s", "--single-item"], action := "store_true",
       default := .boolV false : ArgSpec } ∈ argsOfTop cpuCount "repro") ∧
    ({ flags := ["targets"], nargs := "*",
       default := .strListV [Stage.STAGE_FILE] : ArgSpec } ∈
      argsOfTop cpuCount "repro") :=
  ⟨rfl, List.mem_append_right _ (by decide),
    List.mem_append_right _ (by decide),
    List.mem_append_right _ (by decide)⟩

/-- C5: fingerprinting is deterministic and content-only — files with
equal content (whatever their mtime or permissions, and in particular
the same file fingerprinted twice while unchanged) get equal
fingerprints, and files with different content get different
fingerprints (collision-freedom holding at the hash-function level, as
the spec assumes). -/
theorem C5_fingerprint_content_only :
    (∀ f g : FileMeta, f.content = g.content → fingerprint f = fingerprint g) ∧
    (∀ f g : FileMeta, f.content ≠ g.content → fingerprint f ≠ fingerprint g) := by
  constructor
  · intro f g h
    simp [fingerprint, hashContent, h]
  · intro f g h hc
    exact h hc

/-- C8: `collect` never removes a cache entry whose fingerprint is the
current output of any existing stage descriptor, and an entry is removed
exactly when it is outside the reachable set (no entry is ever added). -/
theorem C8_gc_never_removes_outputs (stages : List RStage) (cache : List Nat) :
    (∀ fp, (∃ s ∈ stages, ∃ o ∈ s.outs, o.2 = some fp) → fp ∈ cache →
      fp ∈ collect stages cache) ∧
    (∀ fp ∈ cache, fp ∉ collect stages cache → fp ∉ reachableFps stages) ∧
    (∀ fp ∈ collect stages cache, fp ∈ cache) := by
  refine ⟨?_, ?_, ?_⟩
  · rintro fp ⟨s, hs, o, ho, hfp⟩ hcache
    have hreach : fp ∈ reachableFps stages := by
      simp only [reachableFps, List.mem_flatten, List.mem_map]
      exact ⟨s.outs.filterMap Prod.snd, ⟨s, hs, rfl⟩,
        List.mem_filterMap.mpr ⟨o, ho, hfp⟩⟩
    simp only [collect, List.mem_filter]
    exact ⟨hcache, by simpa using hreach⟩
  · intro fp hcache hnot hreach
    apply hnot
    simp only [collect, List.mem_filter]
    exact ⟨hcache, by simpa using hreach⟩
  · intro fp hfp
    exact (List.mem_filter.mp hfp).1

/-- Witness for C5 at concrete files: same content under different
metadata, and differing contents. -/
theorem C5_witness :
    (({ content := [1, 2], mtime := 5, perms := 6 } : FileMeta).content =
      ({ content := [1, 2], mtime := 7, perms := 0 } : FileMeta).content ∧
     fingerprint { content := [1, 2], mtime := 5, perms := 6 } =
      fingerprint { content := [1, 2], mtime := 7, perms := 0 }) ∧
    (({ content := [1, 2], mtime := 5, perms := 6 } : FileMeta).content ≠
      ({ content := [3], mtime := 5, perms := 6 } : FileMeta).content ∧
     fingerprint { content := [1, 2], mtime := 5, perms := 6 } ≠
      fingerprint { content := [3], mtime := 5, perms := 6 }) :=
  ⟨⟨by decide, C5_fingerprint_content_only.1 _ _ (by decide)⟩,
   ⟨by decide, C5_fingerprint_content_only.2 _ _ (by decide)⟩⟩

/-- Witness for C8: a stage outputs fingerprint 3; the cache holds 3 and
an unreferenced 9. -/
theorem C8_witness :
    ((∃ s ∈ [({ path := "s.dvc", cmd := 1, cmdFp := some 1,
                deps := [], outs := [("x", some 3)], locked := false } :
        RStage)], ∃ o ∈ s.outs, o.2 = some 3) ∧
      3 ∈ [3, 9] ∧
      3 ∈ collect
        [{ path := "s.dvc", cmd := 1, cmdFp := some 1, deps := [],
           outs := [("x", some 3)], locked := false }] [3, 9]) :=
  ⟨by decide, by decide,
    (C8_gc_never_removes_outputs _ _).1 3 (by decide) (by decide)⟩

/-- If a nonempty stage set inside `remaining` has every member fed by a
`depEdgeD` edge from inside the set (the footprint of a dependency
cycle), no elimination round ever clears it, so `kahn` reports a cycle. -/
lemma kahn_eq_none_of_cycle :
    ∀ (fuel : Nat) (remaining c : List StageD),
      c ≠ [] → (∀ s ∈ c, s ∈ remaining) →
      (∀ s ∈ c, ∃ t ∈ c, depEdgeD t s = true) →
      kahn fuel remaining = none := by
  intro fuel
  induction fuel with
  | zero =>
    intro remaining c hne hsub _
    cases remaining with
    | nil =>
      cases c with
      | nil => exact absurd rfl hne
      | cons s c' => exact absurd (hsub s (by simp)) (by simp)
    | cons s r => simp [kahn]
  | succ fuel ih =>
    intro remaining c hne hsub hcyc
    cases remaining with
    | nil =>
      cases c with
      | nil => exact absurd rfl hne
      | cons s c' => exact absurd (hsub s (by simp)) (by simp)
    | cons s r =>
      simp only [kahn]
      by_cases hs : ((s :: r).filter (fun x => noIncoming (s :: r) x)).isEmpty
      · simp [hs]
      · simp only [hs, Bool.false_eq_true, if_false, Option.map_eq_none']
        apply ih _ c hne ?_ hcyc
        intro x hx
        rw [List.mem_filter]
        refine ⟨hsub x hx, ?_⟩
        obtain ⟨t, htc, hedge⟩ := hcyc x hx
        simp only [noIncoming, Bool.not_not, List.any_eq_true]
        exact ⟨t, hsub t htc, hedge⟩

/-- C6: on any stage set containing a dependency cycle,
`DependencyGraph.build` fails with a `StructuralError` and leaves the
repository unchanged (no mutation). -/
theorem C6_cycle_build_fails (r : Repo) (c : List StageD)
    (h : IsCycleIn r.stages c) :
    ∃ e, buildInRepo r = (Except.error e, r) := by
  obtain ⟨hne, hsub, hcyc⟩ := h
  unfold buildInRepo build
  by_cases hp : pairwiseDisjointOuts r.stages
  · rw [kahn_eq_none_of_cycle r.stages.length r.stages c hne hsub hcyc]
    exact ⟨.cycle, by simp [hp]⟩
  · exact ⟨.ambiguousProducer, by simp [hp]⟩

/-- The spec's example cycle: stage A outputs X and depends on Y. -/
def stA : StageD := { path := "a.dvc", cmd := "genA", deps := ["Y"], outs := ["X"] }

/-- The spec's example cycle: stage B outputs Y and depends on X. -/
def stB : StageD := { path := "b.dvc", cmd := "genB", deps := ["X"], outs := ["Y"] }

/-- Witness for C6 on the spec's two-stage example cycle. -/
theorem C6_witness :
    IsCycleIn [stA, stB] [stA, stB] ∧
    ∃ e, buildInRepo { stages := [stA, stB], workspace := [] } =
      (Except.error e, { stages := [stA, stB], workspace := [] }) :=
  ⟨by decide, C6_cycle_build_fails _ [stA, stB] (by decide)⟩

/-- C9: every `(stage, items)` pair yielded by
`CmdDataStatus._process_status` has non-empty items (stages whose status
is empty are dropped), each pair comes from an entry of the input status
with `items` the computed flattening, and a dict-valued stage status is
flattened into the file-to-state mapping. -/
theorem C9_process_status_nonempty (status : List (String × StageStatusVal)) :
    ∀ x ∈ CmdDataStatus.processStatus status,
      isEmptyItems x.2 = false ∧
      ∃ v, (x.1, v) ∈ status ∧ x.2 = CmdDataStatus.itemsOf v ∧
        (∀ g, v = .grouped g → x.2 = .mapping (CmdDataStatus.flattenGrouped g)) := by
  induction status with
  | nil => intro x hx; simp [CmdDataStatus.processStatus] at hx
  | cons e rest ih =>
    intro x hx
    obtain ⟨stage, v⟩ := e
    simp only [CmdDataStatus.processStatus] at hx
    by_cases h : isEmptyItems (CmdDataStatus.itemsOf v)
    · rw [if_pos h] at hx
      obtain ⟨h1, w, hw, hx2, hx3⟩ := ih x hx
      exact ⟨h1, w, List.mem_cons_of_mem _ hw, hx2, hx3⟩
    · rw [if_neg h] at hx
      rcases List.mem_cons.mp hx with rfl | hx
      · refine ⟨Bool.eq_false_iff.mpr h, v, List.mem_cons_self _ _, rfl, ?_⟩
        intro g hg
        subst hg
        rfl
      · obtain ⟨h1, w, hw, hx2, hx3⟩ := ih x hx
        exact ⟨h1, w, List.mem_cons_of_mem _ hw, hx2, hx3⟩

/-- Witness for C9: a dict-valued `committed` section is flattened and
yielded; an empty section is dropped. -/
theorem C9_witness :
    (("committed", Items.mapping [("x", "modified"), ("y", "modified")]) ∈
      CmdDataStatus.processStatus
        [("committed", .grouped [("modified", ["x", "y"])]),
         ("not_in_cache", .files [])]) ∧
    isEmptyItems (Items.mapping [("x", "modified"), ("y", "modified")]) = false ∧
    ∃ v, ("committed", v) ∈
        [("committed", StageStatusVal.grouped [("modified", ["x", "y"])]),
         ("not_in_cache", StageStatusVal.files [])] ∧
      Items.mapping [("x", "modified"), ("y", "modified")] =
        CmdDataStatus.itemsOf v ∧
      (∀ g, v = .grouped g →
        Items.mapping [("x", "modified"), ("y", "modified")] =
          .mapping (CmdDataStatus.flattenGrouped g)) :=
  ⟨by decide,
    C9_process_status_nonempty
      [("committed", .grouped [("modified", ["x", "y"])]),
       ("not_in_cache", .files [])]
      ("committed", Items.mapping [("x", "modified"), ("y", "modified")])
      (by decide)⟩

/-- C4: for every status input on which it completes, `CmdDataStatus.run`
returns exit code 0 on every path — the JSON path, the no-changes path
and the styled display path (`_show_status` itself always returns 0). -/
theorem C4_status_exit_zero :
    (∀ st : DataStatus, (CmdDataStatus.showStatus st).2 = 0) ∧
    ∀ (args : DataArgs) (st : DataStatus) (r : Rendered × Int),
      CmdDataStatus.run args st = some r → r.2 = 0 := by
  constructor
  · intro st; rfl
  · intro args st r h
    unfold CmdDataStatus.run at h
    split at h
    · exact absurd h (by simp)
    · split at h
      · exact absurd h (by simp)
      · split at h
        · cases h; rfl
        · cases h; rfl

/-- Witness for C4 on a concrete status: the JSON path completes with
exit code 0. -/
theorem C4_witness :
    CmdDataStatus.run { json := true }
      { sections := [("unchanged", .files ["a"]), ("untracked", .files ["b"]),
          ("committed", .grouped [("modified", ["x"])])],
        git := { is_empty := false, is_dirty := true } } =
      some (.jsonDoc [("committed", .grouped [("modified", ["x"])])], 0) ∧
    ((Rendered.jsonDoc
        [("committed", StageStatusVal.grouped [("modified", ["x"])])],
      (0 : Int))).2 = 0 :=
  ⟨by decide,
    C4_status_exit_zero.2 { json := true }
      { sections := [("unchanged", .files ["a"]), ("untracked", .files ["b"]),
          ("committed", .grouped [("modified", ["x"])])],
        git := { is_empty := false, is_dirty := true } }
      (.jsonDoc [("committed", .grouped [("modified", ["x"])])], 0)
      (by decide)⟩

/-- Popping a key yields a sublist of the original section list. -/
lemma popKey_sublist : ∀ {l l' : List (String × StageStatusVal)} {k : String},
    popKey l k = some l' → l'.Sublist l := by
  intro l
  induction l with
  | nil => intro l' k h; simp [popKey] at h
  | cons e rest ih =>
    intro l' k h
    obtain ⟨k', v⟩ := e
    simp only [popKey] at h
    by_cases hk : k' = k
    · rw [if_pos hk] at h
      cases h
      exact List.sublist_cons_self _ _
    · rw [if_neg hk] at h
      cases hp : popKey rest k with
      | none => rw [hp] at h; simp at h
      | some m =>
        rw [hp] at h
        simp only [Option.map_some'] at h
        cases h
        exact List.Sublist.cons₂ _ (ih hp)

/-- After popping a key from a dict with distinct keys, the key is gone. -/
lemma popKey_key_not_mem :
    ∀ {l l' : List (String × StageStatusVal)} {k : String},
      popKey l k = some l' → (l.map Prod.fst).Nodup →
      k ∉ l'.map Prod.fst := by
  intro l
  induction l with
  | nil => intro l' k h _; simp [popKey] at h
  | cons e rest ih =>
    intro l' k h hnd
    obtain ⟨k', v⟩ := e
    simp only [List.map_cons, List.nodup_cons] at hnd
    simp only [popKey] at h
    by_cases hk : k' = k
    · rw [if_pos hk] at h
      cases h
      rw [← hk]
      exact hnd.1
    · rw [if_neg hk] at h
      cases hp : popKey rest k with
      | none => rw [hp] at h; simp at h
      | some m =>
        rw [hp] at h
        simp only [Option.map_some'] at h
        cases h
        simp only [List.map_cons, List.mem_cons]
        rintro (hkk | hm)
        · exact hk hkk.symm
        · exact ih hp hnd.2 hm

/-- C10: on the JSON path (`--json` set), `CmdDataStatus.run` returns
exit code 0 and a JSON document containing only the non-empty remaining
sections — the `unchanged` section removed unless `--unchanged` is set,
the `untracked` section removed when `--untracked-files` is `"no"`, the
git entry never included, and no styled display produced; moreover the
parser defaults `--unchanged` to false and `--untracked-files` to
`"no"`. -/
theorem C10_run_json_sections (args : DataArgs) (st : DataStatus)
    (r : Rendered × Int)
    (hnd : (st.sections.map Prod.fst).Nodup)
    (hjson : args.json = true)
    (h : CmdDataStatus.run args st = some r) :
    (r.2 = 0 ∧
     ∃ L, r.1 = .jsonDoc L ∧
       (∀ kv ∈ L, isEmptyVal kv.2 = false ∧ kv ∈ st.sections) ∧
       (args.unchanged = false → "unchanged" ∉ L.map Prod.fst) ∧
       (args.untracked_files = "no" → "untracked" ∉ L.map Prod.fst)) ∧
    ({ flags := ["--unchanged"], action := "store_true",
       default := .boolV false : ArgSpec } ∈ dataStatusParserArgs) ∧
    ({ flags := ["--untracked-files"], default := .strV "no", nargs := "?",
       choices := ["no", "all"] : ArgSpec } ∈ dataStatusParserArgs) := by
  refine ⟨?_, by decide, by decide⟩
  unfold CmdDataStatus.run at h
  split at h
  · exact absurd h (by simp)
  case _ s1 heq1 =>
    split at h
    · exact absurd h (by simp)
    case _ s2 heq2 =>
      rw [hjson, if_pos rfl] at h
      cases h
      have hs1 : s1.Sublist st.sections := by
        by_cases hu : args.unchanged
        · rw [if_pos hu] at heq1; cases heq1; exact List.Sublist.refl _
        · rw [if_neg hu] at heq1; exact popKey_sublist heq1
      have hnd1 : (s1.map Prod.fst).Nodup := hnd.sublist (hs1.map Prod.fst)
      have hs2 : s2.Sublist s1 := by
        by_cases hv : args.untracked_files = "no"
        · rw [if_pos hv] at heq2; exact popKey_sublist heq2
        · rw [if_neg hv] at heq2; cases heq2; exact List.Sublist.refl _
      have hL : (compactSections s2).Sublist s2 := List.filter_sublist _
      refine ⟨rfl, compactSections s2, rfl, ?_, ?_, ?_⟩
      · intro kv hkv
        have hm := List.mem_filter.mp hkv
        refine ⟨by simpa using hm.2, ?_⟩
        exact hs1.subset (hs2.subset hm.1)
      · intro hu hmem
        rw [hu] at heq1
        simp only [Bool.false_eq_true, if_false] at heq1
        have hk := popKey_key_not_mem heq1 hnd
        exact hk (((hL.trans hs2).map Prod.fst).subset hmem)
      · intro hv hmem
        rw [hv] at heq2
        simp only [if_pos rfl] at heq2
        have hk := popKey_key_not_mem heq2 hnd1
        exact hk ((hL.map Prod.fst).subset hmem)

/-- Witness for C10 on a concrete status with all three sections. -/
theorem C10_witness :
    (([("unchanged", StageStatusVal.files ["a"]),
       ("untracked", StageStatusVal.files ["b"]),
       ("committed", StageStatusVal.grouped [("modified", ["x"])])].map
        Prod.fst).Nodup) ∧
    ({ json := true : DataArgs }.json = true) ∧
    CmdDataStatus.run { json := true }
      { sections := [("unchanged", .files ["a"]), ("untracked", .files ["b"]),
          ("committed", .grouped [("modified", ["x"])])],
        git := { is_empty := false, is_dirty := false } } =
      some (.jsonDoc [("committed", .grouped [("modified", ["x"])])], 0) ∧
    (((.jsonDoc [("committed", .grouped [("modified", ["x"])])],
        (0 : Int)) : Rendered × Int).2 = 0 ∧
     ∃ L, ((.jsonDoc [("committed", .grouped [("modified", ["x"])])],
        (0 : Int)) : Rendered × Int).1 = .jsonDoc L ∧
       (∀ kv ∈ L, isEmptyVal kv.2 = false ∧
         kv ∈ [("unchanged", StageStatusVal.files ["a"]),
           ("untracked", StageStatusVal.files ["b"]),
           ("committed", StageStatusVal.grouped [("modified", ["x"])])]) ∧
       (({ json := true : DataArgs }).unchanged = false →
         "unchanged" ∉ L.map Prod.fst) ∧
       (({ json := true : DataArgs }).untracked_files = "no" →
         "untracked" ∉ L.map Prod.fst)) :=
  ⟨by decide, rfl, by decide,
    (C10_run_json_sections { json := true }
      { sections := [("unchanged", .files ["a"]), ("untracked", .files ["b"]),
          ("committed", .grouped [("modified", ["x"])])],
        git := { is_empty := false, is_dirty := false } }
      (.jsonDoc [("committed", .grouped [("modified", ["x"])])], 0)
      (by decide) rfl (by decide)).1⟩

/-!
Proof development for reproduction idempotence.  The plan: after one
`repro` run over topologically ordered stages with repository-unique
output paths, every final descriptor is locked or agrees with the final
workspace (`repro_post`); a run over stages that are all locked or
up-to-date executes nothing and skips everything (`repro_skips_upToDate`).
-/

/-- `alookup` after a dict insertion. -/
lemma alookup_dictInsert {β : Type} (m : List (String × β)) (k : String)
    (v : β) (p : String) :
    alookup (dictInsert m k v) p = if k = p then some v else alookup m p := by
  induction m with
  | nil => simp [dictInsert, alookup]
  | cons e rest ih =>
    obtain ⟨k', v'⟩ := e
    simp only [dictInsert]
    by_cases hk : k' = k
    · subst hk
      simp only [if_pos rfl, alookup]
      by_cases hq : k' = p
      · simp [hq]
      · simp [hq]
    · simp only [if_neg hk, alookup, ih]
      by_cases hq : k = p
      · have hp : ¬(k' = p) := fun h => hk (h.trans hq.symm)
        simp [hp, hq]
      · by_cases hp : k' = p
        · simp [hp, hq]
        · simp [hp, hq]

/-- Writing outputs leaves unrelated paths untouched. -/
lemma alookup_writeOuts_notMem (vals : Nat → Nat) :
    ∀ (outs : List (String × Option Nat)) (i : Nat)
      (env : List (String × Nat)) (p : String),
      p ∉ outs.map Prod.fst →
      alookup (writeOuts vals outs i env) p = alookup env p := by
  intro outs
  induction outs with
  | nil => intro i env p _; rfl
  | cons o rest ih =>
    intro i env p hp
    simp only [List.map_cons, List.mem_cons, not_or] at hp
    simp only [writeOuts]
    rw [ih _ _ _ hp.2, alookup_dictInsert, if_neg (Ne.symm hp.1)]

/-- After writing outputs, every written path (and every path already
present) is present. -/
lemma alookup_writeOuts_isSome (vals : Nat → Nat) :
    ∀ (outs : List (String × Option Nat)) (i : Nat)
      (env : List (String × Nat)) (p : String),
      p ∈ outs.map Prod.fst ∨ (alookup env p).isSome = true →
      (alookup (writeOuts vals outs i env) p).isSome = true := by
  intro outs
  induction outs with
  | nil =>
    intro i env p hp
    rcases hp with hp | hp
    · simp at hp
    · exact hp
  | cons o rest ih =>
    intro i env p hp
    simp only [writeOuts]
    rcases hp with hp | hp
    · simp only [List.map_cons, List.mem_cons] at hp
      rcases hp with rfl | hp
      · apply ih
        right
        rw [alookup_dictInsert, if_pos rfl]
        rfl
      · exact ih _ _ _ (Or.inl hp)
    · apply ih
      right
      rw [alookup_dictInsert]
      by_cases h : o.1 = p
      · rw [if_pos h]; rfl
      · rw [if_neg h]; exact hp

/-- A `repro` walk only writes to output paths of the stages it
processes: any other path keeps its workspace value. -/
lemma repro_env_stable (exec : Nat → List Nat → Nat → Nat) (force : Bool) :
    ∀ (todo : List RStage) (env : List (String × Nat))
      (executed : List RStage) (p : String),
      (∀ t ∈ todo, p ∉ t.outs.map Prod.fst) →
      alookup (repro exec force env executed todo).1 p = alookup env p := by
  intro todo
  induction todo with
  | nil => intro env executed p _; rfl
  | cons s rest ih =>
    intro env executed p hp
    have hps : p ∉ s.outs.map Prod.fst := hp s (List.mem_cons_self _ _)
    have hprest : ∀ t ∈ rest, p ∉ t.outs.map Prod.fst :=
      fun t ht => hp t (List.mem_cons_of_mem _ ht)
    simp only [repro]
    by_cases hl : s.locked
    · rw [if_pos hl]
      exact ih _ _ _ hprest
    · rw [if_neg hl]
      by_cases hst : isStale force env executed s
      · rw [if_pos hst]
        simp only []
        rw [ih _ _ _ hprest, alookup_writeOuts_notMem _ _ _ _ _ hps]
      · rw [if_neg hst]
        exact ih _ _ _ hprest

/-- A missing edge `t → s` means no dependency path of `s` is an output
path of `t`. -/
lemma not_rDepEdge_dep_not_out {t s : RStage} (h : rDepEdge t s = false) :
    ∀ d ∈ s.deps, d.1 ∉ t.outs.map Prod.fst := by
  intro d hd hmem
  obtain ⟨o, ho, heq⟩ := List.mem_map.mp hmem
  suffices hcontra : rDepEdge t s = true by rw [h] at hcontra; cases hcontra
  simp only [rDepEdge, List.any_eq_true, decide_eq_true_eq]
  exact ⟨o, ho, d, hd, heq.symm⟩

/-- Disjoint output sets share no output path. -/
lemma outsDisjoint_not_mem {s t : RStage} (h : outsDisjoint s t = true) :
    ∀ o ∈ s.outs, o.1 ∉ t.outs.map Prod.fst := by
  intro o ho hmem
  obtain ⟨o', ho', heq⟩ := List.mem_map.mp hmem
  suffices hcontra :
      (s.outs.any (fun o => t.outs.any (fun o' => o'.1 = o.1))) = true by
    rw [outsDisjoint, hcontra] at h
    cases h
  simp only [List.any_eq_true, decide_eq_true_eq]
  exact ⟨o, ho, o', ho', heq⟩

/-- Unpacking `depsChanged = false`: each recorded dependency fingerprint
matches the workspace. -/
lemma depsChanged_false_mem {env : List (String × Nat)} {s : RStage}
    (h : depsChanged env s = false) :
    ∀ d ∈ s.deps, d.2 = alookup env d.1 := by
  intro d hd
  rw [depsChanged, List.any_eq_false] at h
  simpa using h d hd

/-- Unpacking `outsMissing = false`: each output is present. -/
lemma outsMissing_false_mem {env : List (String × Nat)} {s : RStage}
    (h : outsMissing env s = false) :
    ∀ o ∈ s.outs, (alookup env o.1).isSome = true := by
  intro o ho
  rw [outsMissing, List.any_eq_false] at h
  have := h o ho
  cases halo : alookup env o.1 with
  | none => rw [halo] at this; simp at this
  | some v => rfl

/-- An executed stage's updated descriptor stays up to date through the
rest of the run: later stages touch neither its dependency paths
(topological order) nor its output paths (unique outputs). -/
lemma upToDate_after_exec (exec : Nat → List Nat → Nat → Nat) (force : Bool)
    (rest : List RStage) (env : List (String × Nat)) (executed' : List RStage)
    (s : RStage)
    (hdep_rest : ∀ d ∈ s.deps, ∀ t ∈ rest, d.1 ∉ t.outs.map Prod.fst)
    (hdep_self : ∀ d ∈ s.deps, d.1 ∉ s.outs.map Prod.fst)
    (hout_rest : ∀ o ∈ s.outs, ∀ t ∈ rest, o.1 ∉ t.outs.map Prod.fst) :
    upToDate
      (repro exec force (writeOuts (exec s.cmd (depContents env s)) s.outs 0 env)
        executed' rest).1
      (updateStage env
        (writeOuts (exec s.cmd (depContents env s)) s.outs 0 env) s) = true := by
  simp only [upToDate, Bool.and_eq_true, Bool.not_eq_true']
  refine ⟨⟨?_, ?_⟩, ?_⟩
  · simp only [updateStage, depsChanged, List.any_map]
    rw [List.any_eq_false]
    intro d hd
    have h1 := repro_env_stable exec force rest
      (writeOuts (exec s.cmd (depContents env s)) s.outs 0 env) executed' d.1
      (fun t ht => hdep_rest d hd t ht)
    have h2 := alookup_writeOuts_notMem (exec s.cmd (depContents env s))
      s.outs 0 env d.1 (hdep_self d hd)
    simp only [Function.comp]
    rw [h1, h2]
    simp
  · simp only [updateStage, outsMissing, List.any_map]
    rw [List.any_eq_false]
    intro o ho
    have h1 := repro_env_stable exec force rest
      (writeOuts (exec s.cmd (depContents env s)) s.outs 0 env) executed' o.1
      (fun t ht => hout_rest o ho t ht)
    have h2 := alookup_writeOuts_isSome (exec s.cmd (depContents env s))
      s.outs 0 env o.1 (Or.inl (List.mem_map_of_mem _ ho))
    simp only [Function.comp]
    rw [h1]
    intro hcontra
    rw [Option.isNone_iff_eq_none] at hcontra
    rw [hcontra] at h2
    cases h2
  · simp [updateStage, cmdChanged]

/-- A stage found up to date stays up to date through the rest of the
run, for the same disjointness reasons. -/
lemma upToDate_preserved (exec : Nat → List Nat → Nat → Nat) (force : Bool)
    (rest : List RStage) (env : List (String × Nat)) (executed : List RStage)
    (s : RStage)
    (hdeps : depsChanged env s = false) (houts : outsMissing env s = false)
    (hcmd : cmdChanged s = false)
    (hdep_rest : ∀ d ∈ s.deps, ∀ t ∈ rest, d.1 ∉ t.outs.map Prod.fst)
    (hout_rest : ∀ o ∈ s.outs, ∀ t ∈ rest, o.1 ∉ t.outs.map Prod.fst) :
    upToDate (repro exec force env executed rest).1 s = true := by
  simp only [upToDate, Bool.and_eq_true, Bool.not_eq_true']
  refine ⟨⟨?_, ?_⟩, hcmd⟩
  · rw [depsChanged, List.any_eq_false]
    intro d hd
    have h1 := repro_env_stable exec force rest env executed d.1
      (fun t ht => hdep_rest d hd t ht)
    rw [h1]
    have h2 := depsChanged_false_mem hdeps d hd
    simp [h2]
  · rw [outsMissing, List.any_eq_false]
    intro o ho
    have h1 := repro_env_stable exec force rest env executed o.1
      (fun t ht => hout_rest o ho t ht)
    rw [h1]
    have h2 := outsMissing_false_mem houts o ho
    intro hcontra
    rw [Option.isNone_iff_eq_none] at hcontra
    rw [hcontra] at h2
    cases h2

/-- Post-condition of a `repro` run over topologically ordered stages
with repository-unique output paths: every resulting descriptor is
locked or up to date with respect to the final workspace. -/
lemma repro_post (exec : Nat → List Nat → Nat → Nat) (force : Bool) :
    ∀ (todo : List RStage) (env : List (String × Nat))
      (executed : List RStage),
      topoOrdered todo = true → uniqueOuts todo = true →
      ∀ q ∈ (repro exec force env executed todo).2,
        q.1.locked = true ∨
          upToDate (repro exec force env executed todo).1 q.1 = true := by
  intro todo
  induction todo with
  | nil => intro env executed _ _ q hq; simp [repro] at hq
  | cons s rest ih =>
    intro env executed htopo huniq q hq
    simp only [topoOrdered, Bool.and_eq_true, List.all_eq_true] at htopo
    obtain ⟨hA0, htrest⟩ := htopo
    simp only [uniqueOuts, Bool.and_eq_true, List.all_eq_true] at huniq
    obtain ⟨hB0, hurest⟩ := huniq
    have hA : ∀ t ∈ rest, rDepEdge t s = false := by
      intro t ht
      have := hA0 t (List.mem_cons_of_mem _ ht)
      simpa using this
    have hss : rDepEdge s s = false := by
      have := hA0 s (List.mem_cons_self _ _)
      simpa using this
    have hdep_rest : ∀ d ∈ s.deps, ∀ t ∈ rest, d.1 ∉ t.outs.map Prod.fst :=
      fun d hd t ht => not_rDepEdge_dep_not_out (hA t ht) d hd
    have hdep_self : ∀ d ∈ s.deps, d.1 ∉ s.outs.map Prod.fst :=
      fun d hd => not_rDepEdge_dep_not_out hss d hd
    have hout_rest : ∀ o ∈ s.outs, ∀ t ∈ rest, o.1 ∉ t.outs.map Prod.fst :=
      fun o ho t ht => outsDisjoint_not_mem (hB0 t ht) o ho
    simp only [repro] at hq ⊢
    by_cases hl : s.locked
    · rw [if_pos hl] at hq ⊢
      rcases List.mem_cons.mp hq with rfl | hq2
      · exact Or.inl hl
      · exact ih env executed htrest hurest q hq2
    · rw [if_neg hl] at hq ⊢
      by_cases hst : isStale force env executed s
      · rw [if_pos hst] at hq ⊢
        rcases List.mem_cons.mp hq with rfl | hq2
        · exact Or.inr
            (upToDate_after_exec exec force rest env _ s hdep_rest hdep_self
              hout_rest)
        · exact ih _ _ htrest hurest q hq2
      · rw [if_neg hst] at hq ⊢
        simp only [isStale, Bool.or_eq_true, not_or] at hst
        obtain ⟨⟨⟨⟨hforce, hdeps⟩, houts⟩, hcmd⟩, hanc⟩ := hst
        rcases List.mem_cons.mp hq with rfl | hq2
        · exact Or.inr
            (upToDate_preserved exec force rest env executed s
              (Bool.eq_false_iff.mpr hdeps)
              (Bool.eq_false_iff.mpr houts) (Bool.eq_false_iff.mpr hcmd)
              hdep_rest hout_rest)
        · exact ih env executed htrest hurest q hq2

/-- A non-forced run over stages that are each locked or up to date
executes nothing: the workspace is unchanged and every stage is
skipped with its descriptor untouched. -/
lemma repro_skips_upToDate (exec : Nat → List Nat → Nat → Nat) :
    ∀ (todo : List RStage) (env : List (String × Nat)),
      (∀ s ∈ todo, s.locked = true ∨ upToDate env s = true) →
      repro exec false env [] todo =
        (env, todo.map (fun s => (s, StageResult.skipped))) := by
  intro todo
  induction todo with
  | nil => intro env _; rfl
  | cons s rest ih =>
    intro env h
    have hs := h s (List.mem_cons_self _ _)
    have hrest := fun t ht => h t (List.mem_cons_of_mem _ ht)
    simp only [repro, List.map_cons]
    by_cases hl : s.locked
    · rw [if_pos hl, ih env hrest]
    · rw [if_neg hl]
      have hupd : upToDate env s = true := by
        rcases hs with hs | hs
        · exact absurd hs hl
        · exact hs
      have hstale : isStale false env [] s = false := by
        simp only [upToDate, Bool.and_eq_true, Bool.not_eq_true'] at hupd
        simp [isStale, ancestorReexecuted, hupd.1.1, hupd.1.2, hupd.2]
      simp only [hstale, Bool.false_eq_true, if_false]
      rw [ih env hrest]

/-- C7: reproduction is idempotent — for every workspace and every stage
list in topological order with repository-unique output paths, running
`repro` and then immediately running `repro` again with no intervening
changes leaves the workspace untouched and ends every stage in the
Skipped state (zero re-executions on the second run). -/
theorem C7_repro_idempotent (exec : Nat → List Nat → Nat → Nat)
    (env : List (String × Nat)) (stages : List RStage)
    (h_topo : topoOrdered stages = true) (h_uniq : uniqueOuts stages = true) :
    reproRun exec false (reproRun exec false env stages).1
        ((reproRun exec false env stages).2.map Prod.fst) =
      ((reproRun exec false env stages).1,
        ((reproRun exec false env stages).2.map Prod.fst).map
          (fun s => (s, StageResult.skipped))) := by
  apply repro_skips_upToDate
  intro s hs
  obtain ⟨q, hq, rfl⟩ := List.mem_map.mp hs
  exact repro_post exec false stages env [] h_topo h_uniq q hq

/-- A concrete deterministic command model for the C7 witness. -/
def execW : Nat → List Nat → Nat → Nat := fun c ds i => c + ds.foldl (· + ·) 0 + i

/-- C7 witness pipeline: a generator stage with no dependencies. -/
def s1W : RStage :=
  { path := "s1.dvc", cmd := 10, cmdFp := none, deps := [],
    outs := [("data", none)], locked := false }

/-- C7 witness pipeline: a consumer of the generator's output. -/
def s2W : RStage :=
  { path := "s2.dvc", cmd := 20, cmdFp := none, deps := [("data", none)],
    outs := [("count", none)], locked := false }

/-- Witness for C7 on a concrete two-stage pipeline: the first run
executes both stages; the immediate second run skips everything. -/
theorem C7_witness :
    topoOrdered [s1W, s2W] = true ∧ uniqueOuts [s1W, s2W] = true ∧
    reproRun execW false (reproRun execW false [] [s1W, s2W]).1
        ((reproRun execW false [] [s1W, s2W]).2.map Prod.fst) =
      ((reproRun execW false [] [s1W, s2W]).1,
        ((reproRun execW false [] [s1W, s2W]).2.map Prod.fst).map
          (fun s => (s, StageResult.skipped))) :=
  ⟨by decide, by decide,
    C7_repro_idempotent execW [] [s1W, s2W] (by decide) (by decide)⟩
